import Mathlib

/-!
PROS kernel excerpt: error display and Distance wrapper

Shallow embedding of

* `src/display/error.c` (`display_fatal_error`, `display_error`),
* `src/devices/vdml_distance.cpp` (`pros::Distance`),
* the accessor contract documented in `include/pros/rotation.h`.

Conventions.  A C `char` is a natural number (a byte, `0` being the string
terminator).  A `const char*` argument is the list of bytes found in memory
from the pointer on; a read past the end of the list yields `0`, so the end of
the list acts as a terminator and a `0` inside the list ends the C string
early.  Calls into the closed vendor layer are calls of the fields of an
interface record over an arbitrary vendor state.
-/

namespace Pros

/-! ## C library -/

/-- The byte `text[i]`. -/
def charAt (text : List Nat) (i : Nat) : Nat := text.getD i 0

/-- C `strlen`: the number of bytes before the first terminator. -/
def strlen (text : List Nat) : Nat := (text.takeWhile (fun c => c != 0)).length

/-- The C string stored at a pointer: the bytes before the first terminator. -/
def cstring (text : List Nat) : List Nat := text.takeWhile (fun c => c != 0)

/-- Machine state of a running `strncpy`: the destination memory (from the
`dst` pointer on) together with two ghost logs, the offsets of `src` read so
far and the offsets of `dst` written so far, oldest first. -/
structure CopyState where
  dst : List Nat
  reads : List Nat
  writes : List Nat
deriving DecidableEq

/-- Second loop of `strncpy`, `for (; i < n; i++) dst[i] = 0;`, with `k = n - i`
iterations left. -/
def strncpy_pad : Nat → Nat → CopyState → CopyState
  | 0, _, st => st
  | k + 1, i, st =>
    strncpy_pad k (i + 1) { st with dst := st.dst.set i 0, writes := st.writes ++ [i] }

/-- First loop of `strncpy`, `for (i = 0; i < n && src[i] != 0; i++) dst[i] = src[i];`,
with `k = n - i` iterations left; it falls through to the padding loop. -/
def strncpy_copy (src : List Nat) : Nat → Nat → CopyState → CopyState
  | 0, _, st => st
  | k + 1, i, st =>
    if charAt src i != 0 then
      strncpy_copy src k (i + 1)
        { dst := st.dst.set i (charAt src i), reads := st.reads ++ [i], writes := st.writes ++ [i] }
    else
      strncpy_pad (k + 1) i { st with reads := st.reads ++ [i] }

/-- ISO C `strncpy(dst, src, n)`: copy at most `n` bytes of the string `src`,
and pad with terminators up to `n` bytes when `src` is shorter than `n`. -/
def strncpy (dst src : List Nat) (n : Nat) : CopyState :=
  strncpy_copy src n 0 { dst := dst, reads := [], writes := [] }

/-! ## Vendor display layer -/

/-- One call received by the vendor display layer. -/
inductive VexCall where
  | vexDisplayForegroundColor (col : Nat)
  | vexDisplayRectFill (x1 y1 x2 y2 : Int)
  | vexDisplayCenteredString (nLineNumber : Int) (s : List Nat)
deriving DecidableEq

/-- The vendor drawing primitives used by `display/error.c`, over a vendor
display state `σ`. -/
structure V5Display (σ : Type) where
  vexDisplayForegroundColor : Nat → σ → σ
  vexDisplayRectFill : Int → Int → Int → Int → σ → σ
  vexDisplayCenteredString : Int → List Nat → σ → σ

/-- The vendor layer that only records the calls it receives, oldest first. -/
def recorder : V5Display (List VexCall) where
  vexDisplayForegroundColor col t := t ++ [VexCall.vexDisplayForegroundColor col]
  vexDisplayRectFill x1 y1 x2 y2 t := t ++ [VexCall.vexDisplayRectFill x1 y1 x2 y2]
  vexDisplayCenteredString n s t := t ++ [VexCall.vexDisplayCenteredString n s]

/-! ## `src/display/error.c` -/

/-- `void display_fatal_error(const char* text)`.  `s` is the content of the
uninitialised local `char s[50]`, `d` the vendor display state on entry; the
result is the vendor display state on return. -/
def display_fatal_error {σ : Type} (v : V5Display σ) (s text : List Nat) (d : σ) : σ :=
  let s := (strncpy s text 50).dst
  let d := v.vexDisplayForegroundColor 0x00FF0000 d
  let d := v.vexDisplayRectFill 0 0 480 240 d
  let d := v.vexDisplayForegroundColor 0x00FFFFFF d
  v.vexDisplayCenteredString 6 s d

/-- `void display_error(const char* text)`, same conventions as
`display_fatal_error`. -/
def display_error {σ : Type} (v : V5Display σ) (s text : List Nat) (d : σ) : σ :=
  if charAt text 0 = 0 then
    d
  else
    let s := (strncpy s text 50).dst
    let d := v.vexDisplayForegroundColor 0x00FF0000 d
    let d := v.vexDisplayRectFill 0 0 480 240 d
    let d := v.vexDisplayForegroundColor 0x00FFFFFF d
    v.vexDisplayCenteredString 6 s d

/-- The buffer `s` as `strncpy(s, text, 50)` leaves it. -/
def copied (s text : List Nat) : List Nat := (strncpy s text 50).dst

/-- The four drawing calls of the error screen, for a given buffer. -/
def errorScreen (buf : List Nat) : List VexCall :=
  [ VexCall.vexDisplayForegroundColor 0x00FF0000,
    VexCall.vexDisplayRectFill 0 0 480 240,
    VexCall.vexDisplayForegroundColor 0x00FFFFFF,
    VexCall.vexDisplayCenteredString 6 buf ]

/-! ## `src/devices/vdml_distance.cpp` -/

/-- One call received by the distance accessor layer `pros::c`. -/
inductive DistanceCall where
  | distance_get (port : Nat)
  | distance_get_confidence (port : Nat)
  | distance_get_object_size (port : Nat)
  | distance_get_object_velocity (port : Nat)
deriving DecidableEq

/-- The accessor functions `vdml_distance.cpp` calls, over a state `σ` of
everything below the wrapper (vendor layer, `errno`).  Their prototypes are in
`pros/distance.h`, which is not part of the sources at hand, so the four result
types are parameters. -/
structure DistanceApi (σ α β γ δ : Type) where
  distance_get : Nat → σ → α × σ
  distance_get_confidence : Nat → σ → β × σ
  distance_get_object_size : Nat → σ → γ × σ
  distance_get_object_velocity : Nat → σ → δ × σ

/-- An accessor layer that behaves as `c` and also logs each call it receives. -/
def logged {σ α β γ δ : Type} (c : DistanceApi σ α β γ δ) :
    DistanceApi (σ × List DistanceCall) α β γ δ where
  distance_get p w :=
    ((c.distance_get p w.1).1,
     ((c.distance_get p w.1).2, w.2 ++ [DistanceCall.distance_get p]))
  distance_get_confidence p w :=
    ((c.distance_get_confidence p w.1).1,
     ((c.distance_get_confidence p w.1).2, w.2 ++ [DistanceCall.distance_get_confidence p]))
  distance_get_object_size p w :=
    ((c.distance_get_object_size p w.1).1,
     ((c.distance_get_object_size p w.1).2, w.2 ++ [DistanceCall.distance_get_object_size p]))
  distance_get_object_velocity p w :=
    ((c.distance_get_object_velocity p w.1).1,
     ((c.distance_get_object_velocity p w.1).2,
      w.2 ++ [DistanceCall.distance_get_object_velocity p]))

/-- The class `pros::Distance`: its only member is `_port`, a `std::uint8_t`.
`Distance.mk` is the constructor
`Distance::Distance(const std::uint8_t port):_port(port){}`. -/
structure Distance where
  _port : Nat
deriving DecidableEq

/-- `Distance::get()`.  A method maps the object and the state below it to the
returned value, the object after the call and the state after the call. -/
def Distance.get {σ α β γ δ : Type} (self : Distance) (c : DistanceApi σ α β γ δ) (w : σ) :
    α × Distance × σ :=
  let r := c.distance_get self._port w
  (r.1, self, r.2)

/-- `Distance::get_confidence()`. -/
def Distance.get_confidence {σ α β γ δ : Type} (self : Distance) (c : DistanceApi σ α β γ δ)
    (w : σ) : β × Distance × σ :=
  let r := c.distance_get_confidence self._port w
  (r.1, self, r.2)

/-- `Distance::get_object_size()`. -/
def Distance.get_object_size {σ α β γ δ : Type} (self : Distance) (c : DistanceApi σ α β γ δ)
    (w : σ) : γ × Distance × σ :=
  let r := c.distance_get_object_size self._port w
  (r.1, self, r.2)

/-- `Distance::get_object_velocity()`. -/
def Distance.get_object_velocity {σ α β γ δ : Type} (self : Distance)
    (c : DistanceApi σ α β γ δ) (w : σ) : δ × Distance × σ :=
  let r := c.distance_get_object_velocity self._port w
  (r.1, self, r.2)

/-- `Distance::get_port()`: `return _port;`. -/
def Distance.get_port {σ : Type} (self : Distance) (w : σ) : Nat × Distance × σ :=
  (self._port, self, w)

/-- The methods of `pros::Distance`. -/
inductive DistanceMethod where
  | get
  | get_confidence
  | get_object_size
  | get_object_velocity
  | get_port
deriving DecidableEq

/-- The object and the state below it after one method call (the returned
value is dropped). -/
def Distance.invoke {σ α β γ δ : Type} (c : DistanceApi σ α β γ δ) (m : DistanceMethod)
    (self : Distance) (w : σ) : Distance × σ :=
  match m with
  | DistanceMethod.get => (self.get c w).2
  | DistanceMethod.get_confidence => (self.get_confidence c w).2
  | DistanceMethod.get_object_size => (self.get_object_size c w).2
  | DistanceMethod.get_object_velocity => (self.get_object_velocity c w).2
  | DistanceMethod.get_port => (self.get_port w).2

/-- The object and the state below it after a sequence of method calls. -/
def Distance.invokeAll {σ α β γ δ : Type} (c : DistanceApi σ α β γ δ) :
    List DistanceMethod → Distance → σ → Distance × σ
  | [], self, w => (self, w)
  | m :: ms, self, w =>
    Distance.invokeAll c ms (Distance.invoke c m self w).1 (Distance.invoke c m self w).2

/-! ## `include/pros/rotation.hpp` -/

/-- The class `pros::Rotation`: its only member is `const std::uint8_t _port`.
`Rotation.mk` is the constructor
`Rotation(const std::uint8_t port) : _port(port){};`. -/
structure Rotation where
  _port : Nat
deriving DecidableEq

/-! ## `include/pros/rotation.h`

The header only declares the rotation accessors and documents their error
contract; their bodies (`devices/vdml_rotation.c`) and the headers that define
`PROS_ERR` and the `errno` values are not part of the sources at hand. -/

/-- Modelled from the spec: the reserved "operation failed" integer returned by
a failing accessor, `PROS_ERR` of the absent `pros/error.h`, with the value
`INT32_MAX`. -/
def PROS_ERR : Int := 2147483647

/-- Modelled from the spec: the error code "invalid port number" of the absent
`errno.h`. -/
def ENXIO : Nat := 6

/-- Modelled from the spec: the error code "port not configured as this device
type" of the absent `errno.h`. -/
def ENODEV : Nat := 19

/-- The state the accessors work on: the process-wide error code and the state
of the vendor layer. -/
structure Kernel (σ : Type) where
  errno : Nat
  vendor : σ

/-- Modelled from the spec: the vendor layer below the rotation accessors, which
is absent: whether a port can be configured as a Rotation Sensor, and what each
operation does on a port that passed validation. -/
structure RotationVendor (σ : Type) where
  is_rotation : Nat → σ → Bool
  reset : Nat → Kernel σ → Int × Kernel σ
  set_position : Nat → Nat → Kernel σ → Int × Kernel σ
  reset_position : Nat → Kernel σ → Int × Kernel σ
  get_position : Nat → Kernel σ → Int × Kernel σ
  get_velocity : Nat → Kernel σ → Int × Kernel σ
  get_angle : Nat → Kernel σ → Int × Kernel σ
  set_reversed : Nat → Bool → Kernel σ → Int × Kernel σ
  reverse : Nat → Kernel σ → Int × Kernel σ
  get_reversed : Nat → Kernel σ → Int × Kernel σ

/-- Modelled from the spec: the port validation every rotation accessor goes
through, absent from the sources.  A port outside 1-21 gives the error sentinel
with the error code "invalid port number"; a port that cannot be configured as
a Rotation Sensor gives the error sentinel with "port not configured as this
device type"; otherwise the single vendor call `body` decides. -/
def rotation_claim {σ : Type} (v : RotationVendor σ) (port : Nat) (k : Kernel σ)
    (body : Kernel σ → Int × Kernel σ) : Int × Kernel σ :=
  if 1 ≤ port ∧ port ≤ 21 then
    if v.is_rotation port k.vendor then body k
    else (PROS_ERR, { k with errno := ENODEV })
  else (PROS_ERR, { k with errno := ENXIO })

/-- Modelled from the spec: `int32_t rotation_reset(uint8_t port)`, whose body
is absent. -/
def rotation_reset {σ : Type} (v : RotationVendor σ) (port : Nat) (k : Kernel σ) :
    Int × Kernel σ :=
  rotation_claim v port k (v.reset port)

/-- Modelled from the spec: `int32_t rotation_set_position(uint8_t port,
uint32_t position)`, whose body is absent. -/
def rotation_set_position {σ : Type} (v : RotationVendor σ) (port position : Nat)
    (k : Kernel σ) : Int × Kernel σ :=
  rotation_claim v port k (v.set_position port position)

/-- Modelled from the spec: `int32_t rotation_reset_position(uint8_t port)`,
whose body is absent. -/
def rotation_reset_position {σ : Type} (v : RotationVendor σ) (port : Nat) (k : Kernel σ) :
    Int × Kernel σ :=
  rotation_claim v port k (v.reset_position port)

/-- Modelled from the spec: `int32_t rotation_get_position(uint8_t port)`, whose
body is absent. -/
def rotation_get_position {σ : Type} (v : RotationVendor σ) (port : Nat) (k : Kernel σ) :
    Int × Kernel σ :=
  rotation_claim v port k (v.get_position port)

/-- Modelled from the spec: `int32_t rotation_get_velocity(uint8_t port)`, whose
body is absent. -/
def rotation_get_velocity {σ : Type} (v : RotationVendor σ) (port : Nat) (k : Kernel σ) :
    Int × Kernel σ :=
  rotation_claim v port k (v.get_velocity port)

/-- Modelled from the spec: `int32_t rotation_get_angle(uint8_t port)`, whose
body is absent. -/
def rotation_get_angle {σ : Type} (v : RotationVendor σ) (port : Nat) (k : Kernel σ) :
    Int × Kernel σ :=
  rotation_claim v port k (v.get_angle port)

/-- Modelled from the spec: `int32_t rotation_set_reversed(uint8_t port, bool
value)`, whose body is absent. -/
def rotation_set_reversed {σ : Type} (v : RotationVendor σ) (port : Nat) (value : Bool)
    (k : Kernel σ) : Int × Kernel σ :=
  rotation_claim v port k (v.set_reversed port value)

/-- Modelled from the spec: `int32_t rotation_reverse(uint8_t port)`, whose body
is absent. -/
def rotation_reverse {σ : Type} (v : RotationVendor σ) (port : Nat) (k : Kernel σ) :
    Int × Kernel σ :=
  rotation_claim v port k (v.reverse port)

/-- Modelled from the spec: `int32_t rotation_get_reversed(uint8_t port)`, whose
body is absent. -/
def rotation_get_reversed {σ : Type} (v : RotationVendor σ) (port : Nat) (k : Kernel σ) :
    Int × Kernel σ :=
  rotation_claim v port k (v.get_reversed port)

/-! ## Sample layers -/

/-- A distance accessor layer on which every call fails: it returns `PROS_ERR`
and sets the error code, the state, to "invalid port number". -/
def failingDistance : DistanceApi Nat Int Int Int Int where
  distance_get _ _ := (PROS_ERR, ENXIO)
  distance_get_confidence _ _ := (PROS_ERR, ENXIO)
  distance_get_object_size _ _ := (PROS_ERR, ENXIO)
  distance_get_object_velocity _ _ := (PROS_ERR, ENXIO)

/-- A vendor layer with no state on which every port holds a Rotation Sensor and
every operation succeeds with `1`. -/
def idleRotation : RotationVendor Unit where
  is_rotation _ _ := true
  reset _ k := (1, k)
  set_position _ _ k := (1, k)
  reset_position _ k := (1, k)
  get_position _ k := (1, k)
  get_velocity _ k := (1, k)
  get_angle _ k := (1, k)
  set_reversed _ _ k := (1, k)
  reverse _ k := (1, k)
  get_reversed _ k := (1, k)

/-! ## Facts about `strlen` -/

theorem charAt_ne_zero_of_lt_strlen (text : List Nat) :
    ∀ i, i < strlen text → charAt text i ≠ 0 := by
  induction text with
  | nil => intro i h; simp [strlen] at h
  | cons c cs ih =>
    intro i h
    by_cases hc : c = 0
    · simp [strlen, hc] at h
    · cases i with
      | zero => simpa [charAt] using hc
      | succ j =>
        have : j < strlen cs := by
          simp [strlen, List.takeWhile_cons, hc] at h
          simpa [strlen] using h
        simpa [charAt] using ih j this

theorem charAt_strlen (text : List Nat) : charAt text (strlen text) = 0 := by
  induction text with
  | nil => simp [charAt, strlen]
  | cons c cs ih =>
    by_cases hc : c = 0
    · simp [strlen, charAt, hc]
    · simpa [strlen, charAt, List.takeWhile_cons, hc] using ih

theorem lt_strlen_of_ne_zero {text : List Nat} {i : Nat}
    (hi : i ≤ strlen text) (hc : charAt text i ≠ 0) : i < strlen text := by
  rcases Nat.lt_or_ge i (strlen text) with h | h
  · exact h
  · have : i = strlen text := Nat.le_antisymm hi h
    rw [this] at hc
    exact absurd (charAt_strlen text) hc

theorem eq_strlen_of_eq_zero {text : List Nat} {i : Nat}
    (hi : i ≤ strlen text) (hc : charAt text i = 0) : i = strlen text := by
  rcases Nat.lt_or_ge i (strlen text) with h | h
  · exact absurd hc (charAt_ne_zero_of_lt_strlen text i h)
  · exact Nat.le_antisymm hi h

/-! ## Facts about `strncpy` -/

theorem strncpy_pad_length (k : Nat) : ∀ (i : Nat) (st : CopyState),
    (strncpy_pad k i st).dst.length = st.dst.length := by
  induction k with
  | zero => intro i st; rfl
  | succ k ih => intro i st; simp [strncpy_pad, ih]

theorem strncpy_pad_reads (k : Nat) : ∀ (i : Nat) (st : CopyState),
    (strncpy_pad k i st).reads = st.reads := by
  induction k with
  | zero => intro i st; rfl
  | succ k ih => intro i st; simp [strncpy_pad, ih]

theorem strncpy_pad_writes (k : Nat) : ∀ (i : Nat) (st : CopyState),
    (strncpy_pad k i st).writes = st.writes ++ List.range' i k := by
  induction k with
  | zero => intro i st; simp [strncpy_pad]
  | succ k ih => intro i st; simp [strncpy_pad, ih, List.range'_succ]

theorem strncpy_pad_get (k : Nat) : ∀ (i : Nat) (st : CopyState) (j : Nat),
    (strncpy_pad k i st).dst[j]? =
      if i ≤ j ∧ j < i + k then (st.dst[j]?).map (fun _ => 0) else st.dst[j]? := by
  induction k with
  | zero =>
    intro i st j
    have : ¬ (i ≤ j ∧ j < i + 0) := by omega
    rw [if_neg this]; rfl
  | succ k ih =>
    intro i st j
    rw [strncpy_pad, ih]
    simp only [List.getElem?_set]
    by_cases h1 : i = j
    · subst h1
      have a : ¬ (i + 1 ≤ i ∧ i < i + 1 + k) := by omega
      have b : i ≤ i ∧ i < i + (k + 1) := by omega
      rw [if_neg a, if_pos b, if_pos rfl]
      by_cases hl : i < st.dst.length
      · simp [hl]
      · simp [hl, List.getElem?_eq_none (Nat.le_of_not_lt hl)]
    · rw [if_neg h1]
      by_cases h2 : i + 1 ≤ j ∧ j < i + 1 + k
      · have b : i ≤ j ∧ j < i + (k + 1) := by omega
        rw [if_pos h2, if_pos b]
      · have b : ¬ (i ≤ j ∧ j < i + (k + 1)) := by omega
        rw [if_neg h2, if_neg b]

theorem strncpy_copy_length (src : List Nat) (k : Nat) : ∀ (i : Nat) (st : CopyState),
    (strncpy_copy src k i st).dst.length = st.dst.length := by
  induction k with
  | zero => intro i st; rfl
  | succ k ih =>
    intro i st
    rw [strncpy_copy]
    split
    · rw [ih]; simp
    · rw [strncpy_pad_length]

theorem strncpy_copy_writes (src : List Nat) (k : Nat) : ∀ (i : Nat) (st : CopyState),
    (strncpy_copy src k i st).writes = st.writes ++ List.range' i k := by
  induction k with
  | zero => intro i st; simp [strncpy_copy]
  | succ k ih =>
    intro i st
    rw [strncpy_copy]
    split
    · rw [ih]; simp [List.range'_succ]
    · rw [strncpy_pad_writes]

theorem strncpy_copy_reads (src : List Nat) (k : Nat) : ∀ (i : Nat) (st : CopyState),
    i ≤ strlen src →
    (strncpy_copy src k i st).reads = st.reads ++ List.range' i (min k (strlen src + 1 - i)) := by
  induction k with
  | zero => intro i st _; simp [strncpy_copy]
  | succ k ih =>
    intro i st hi
    rw [strncpy_copy]
    split
    · rename_i hc
      have hc' : charAt src i ≠ 0 := by simpa using hc
      have hlt := lt_strlen_of_ne_zero hi hc'
      rw [ih (i + 1) _ hlt]
      have e : min (k + 1) (strlen src + 1 - i) = min k (strlen src + 1 - (i + 1)) + 1 := by omega
      rw [e, List.range'_succ]
      simp
    · rename_i hc
      have hc' : charAt src i = 0 := by simpa using hc
      have heq := eq_strlen_of_eq_zero hi hc'
      rw [strncpy_pad_reads]
      have e : min (k + 1) (strlen src + 1 - i) = 1 := by omega
      rw [e]
      simp

theorem strncpy_copy_get (src : List Nat) (k : Nat) : ∀ (i : Nat) (st : CopyState) (j : Nat),
    i ≤ strlen src →
    (strncpy_copy src k i st).dst[j]? =
      if i ≤ j ∧ j < i + k then
        (st.dst[j]?).map (fun _ => if j < strlen src then charAt src j else 0)
      else st.dst[j]? := by
  induction k with
  | zero =>
    intro i st j _
    have : ¬ (i ≤ j ∧ j < i + 0) := by omega
    rw [if_neg this]; rfl
  | succ k ih =>
    intro i st j hi
    rw [strncpy_copy]
    split
    · rename_i hc
      have hc' : charAt src i ≠ 0 := by simpa using hc
      have hlt := lt_strlen_of_ne_zero hi hc'
      rw [ih (i + 1) _ j hlt]
      simp only [List.getElem?_set]
      by_cases h1 : i = j
      · subst h1
        have a : ¬ (i + 1 ≤ i ∧ i < i + 1 + k) := by omega
        have b : i ≤ i ∧ i < i + (k + 1) := by omega
        rw [if_neg a, if_pos b, if_pos rfl]
        by_cases hl : i < st.dst.length
        · simp [hl, hlt]
        · simp [hl, List.getElem?_eq_none (Nat.le_of_not_lt hl)]
      · rw [if_neg h1]
        by_cases h2 : i + 1 ≤ j ∧ j < i + 1 + k
        · have b : i ≤ j ∧ j < i + (k + 1) := by omega
          rw [if_pos h2, if_pos b]
        · have b : ¬ (i ≤ j ∧ j < i + (k + 1)) := by omega
          rw [if_neg h2, if_neg b]
    · rename_i hc
      have hc' : charAt src i = 0 := by simpa using hc
      have heq := eq_strlen_of_eq_zero hi hc'
      rw [strncpy_pad_get]
      by_cases h2 : i ≤ j ∧ j < i + (k + 1)
      · have hj : ¬ j < strlen src := by omega
        simp [h2, hj]
      · simp [h2]

theorem strncpy_length (dst src : List Nat) (n : Nat) :
    (strncpy dst src n).dst.length = dst.length := by
  rw [strncpy, strncpy_copy_length]

theorem strncpy_get (dst src : List Nat) (n j : Nat) :
    (strncpy dst src n).dst[j]? =
      if j < n then (dst[j]?).map (fun _ => if j < strlen src then charAt src j else 0)
      else dst[j]? := by
  rw [strncpy, strncpy_copy_get src n 0 _ j (Nat.zero_le _)]
  by_cases h : j < n
  · have b : 0 ≤ j ∧ j < 0 + n := by omega
    rw [if_pos h, if_pos b]
  · have b : ¬ (0 ≤ j ∧ j < 0 + n) := by omega
    rw [if_neg h, if_neg b]

theorem strncpy_writes (dst src : List Nat) (n : Nat) :
    (strncpy dst src n).writes = List.range n := by
  rw [strncpy, strncpy_copy_writes, List.range_eq_range']
  simp

theorem strncpy_reads (dst src : List Nat) (n : Nat) :
    (strncpy dst src n).reads = List.range (min n (strlen src + 1)) := by
  rw [strncpy, strncpy_copy_reads src n 0 _ (Nat.zero_le _), List.range_eq_range']
  simp

/-- The content of the 50-byte buffer after the copy, whatever it held before. -/
theorem copied_eq (s text : List Nat) (hs : s.length = 50) :
    copied s text =
      (List.range 50).map (fun j => if j < strlen text then charAt text j else 0) := by
  apply List.ext_getElem?
  intro j
  rw [copied, strncpy_get]
  by_cases h : j < 50
  · have hj : j < s.length := by omega
    simp [h, List.getElem?_eq_getElem hj, List.getElem?_range h]
  · have hj : s.length ≤ j := by omega
    have hr : (List.range 50).length ≤ j := by simp; omega
    simp [h, List.getElem?_eq_none hj, List.getElem?_eq_none hr]

theorem lt_strlen_iff (text : List Nat) (j : Nat) :
    j < strlen text ↔ ∀ m, m ≤ j → charAt text m ≠ 0 := by
  constructor
  · intro h m hm
    exact charAt_ne_zero_of_lt_strlen text m (Nat.lt_of_le_of_lt hm h)
  · intro h
    rcases Nat.lt_or_ge j (strlen text) with g | g
    · exact g
    · exact absurd (charAt_strlen text) (h _ g)

theorem charAt_cstring (text : List Nat) (j : Nat) :
    (cstring text)[j]? = if j < strlen text then some (charAt text j) else none := by
  induction text generalizing j with
  | nil => simp [cstring, strlen]
  | cons c cs ih =>
    by_cases hc : c = 0
    · simp [cstring, strlen, hc]
    · cases j with
      | zero => simp [cstring, strlen, charAt, List.takeWhile_cons, hc]
      | succ j =>
        have := ih j
        simp only [cstring, strlen] at this
        simp [cstring, strlen, charAt, List.takeWhile_cons, hc, this]

theorem cstring_length (text : List Nat) : (cstring text).length = strlen text := rfl

theorem cstring_append_zero (text r : List Nat) :
    cstring (cstring text ++ 0 :: r) = cstring text := by
  induction text with
  | nil => simp [cstring]
  | cons c cs ih =>
    by_cases hc : c = 0
    · simp [cstring, hc]
    · simp only [cstring] at ih
      simp [cstring, List.takeWhile_cons, hc, ih]

theorem display_fatal_error_recorder (s text : List Nat) (t : List VexCall) :
    display_fatal_error recorder s text t = t ++ errorScreen (copied s text) := by
  simp [display_fatal_error, recorder, errorScreen, copied]

theorem display_error_recorder (s text : List Nat) (t : List VexCall) :
    display_error recorder s text t =
      if charAt text 0 = 0 then t else t ++ errorScreen (copied s text) := by
  by_cases h : charAt text 0 = 0
  · simp [display_error, h]
  · simp [display_error, h, recorder, errorScreen, copied]

theorem copied_length (s text : List Nat) : (copied s text).length = s.length :=
  strncpy_length s text 50

theorem strlen_le_length (text : List Nat) : strlen text ≤ text.length :=
  (List.takeWhile_sublist _).length_le

theorem getElem?_of_lt_strlen (text : List Nat) (i : Nat) (h : i < strlen text) :
    text[i]? = some (charAt text i) := by
  have hl : i < text.length := Nat.lt_of_lt_of_le h (strlen_le_length text)
  simp [charAt, List.getElem?_eq_getElem hl]

/-! ## Claims on `src/display/error.c` -/

/-- C1: `display_error` on a message whose first byte is the terminator leaves
every vendor display state as it was and records no vendor display call; on a
message whose first byte is not the terminator it records at least one. -/
theorem display_error_empty_iff_no_calls (s text : List Nat) :
    (charAt text 0 = 0 →
      (∀ (σ : Type) (v : V5Display σ) (d : σ), display_error v s text d = d) ∧
      (∀ t : List VexCall, display_error recorder s text t = t) ∧
      display_error recorder s text [] = []) ∧
    (charAt text 0 ≠ 0 → display_error recorder s text [] ≠ []) := by
  refine ⟨fun h => ⟨fun σ v d => ?_, fun t => ?_, ?_⟩, fun h => ?_⟩
  · simp [display_error, h]
  · simp [display_error, h]
  · simp [display_error, h]
  · rw [display_error_recorder, if_neg h]
    simp [errorScreen]

theorem display_error_empty_iff_no_calls_witness :
    (display_error recorder (List.replicate 50 170) [] [] = [] ∧
      display_error recorder (List.replicate 50 170) [0, 72] [] = []) ∧
    display_error recorder (List.replicate 50 170) [72, 105] [] ≠ [] :=
  ⟨⟨((display_error_empty_iff_no_calls (List.replicate 50 170) []).1 (by decide)).2.2,
    ((display_error_empty_iff_no_calls (List.replicate 50 170) [0, 72]).1 (by decide)).2.2⟩,
   (display_error_empty_iff_no_calls (List.replicate 50 170) [72, 105]).2 (by decide)⟩

/-- C4: for every message, `display_fatal_error` hands the vendor layer exactly
four calls, in this order: foreground colour `0x00FF0000`, rectangle fill
`(0,0)-(480,240)`, foreground colour `0x00FFFFFF`, centered string on row 6 with
the 50-byte buffer.  Only the buffer depends on the message, and the routine is
a total function of the display state (no failure value). -/
theorem display_fatal_error_calls (s text : List Nat) (hs : s.length = 50) :
    (∀ t : List VexCall, display_fatal_error recorder s text t =
      t ++ [ VexCall.vexDisplayForegroundColor 0x00FF0000,
             VexCall.vexDisplayRectFill 0 0 480 240,
             VexCall.vexDisplayForegroundColor 0x00FFFFFF,
             VexCall.vexDisplayCenteredString 6 (copied s text) ]) ∧
    (copied s text).length = 50 ∧
    (∀ (σ : Type) (v : V5Display σ) (d : σ), display_fatal_error v s text d =
      v.vexDisplayCenteredString 6 (copied s text)
        (v.vexDisplayForegroundColor 0x00FFFFFF
          (v.vexDisplayRectFill 0 0 480 240
            (v.vexDisplayForegroundColor 0x00FF0000 d)))) := by
  refine ⟨fun t => ?_, ?_, fun σ v d => rfl⟩
  · rw [display_fatal_error_recorder]; rfl
  · rw [copied_length, hs]

theorem display_fatal_error_calls_witness :
    display_fatal_error recorder (List.replicate 50 170) [79, 75] [] =
      [ VexCall.vexDisplayForegroundColor 0x00FF0000,
        VexCall.vexDisplayRectFill 0 0 480 240,
        VexCall.vexDisplayForegroundColor 0x00FFFFFF,
        VexCall.vexDisplayCenteredString 6 (79 :: 75 :: List.replicate 48 0) ] :=
  ((display_fatal_error_calls (List.replicate 50 170) [79, 75] (by decide)).1 []).trans
    (by decide)

/-- C5: on a message whose first byte is not the terminator, `display_error`
and `display_fatal_error` fill their buffers with the same bytes and drive every
vendor layer through the same calls, whatever their uninitialised buffers held;
their recorded calls differ exactly when the first byte is the terminator. -/
theorem display_error_eq_display_fatal_error (s s' text : List Nat)
    (hs : s.length = 50) (hs' : s'.length = 50) :
    (charAt text 0 ≠ 0 →
      copied s text = copied s' text ∧
      (∀ (σ : Type) (v : V5Display σ) (d : σ),
        display_error v s text d = display_fatal_error v s' text d) ∧
      display_error recorder s text [] = display_fatal_error recorder s' text []) ∧
    (display_error recorder s text [] ≠ display_fatal_error recorder s' text [] ↔
      charAt text 0 = 0) := by
  have hbuf : copied s text = copied s' text := by
    rw [copied_eq s text hs, copied_eq s' text hs']
  have hb : (strncpy s text 50).dst = (strncpy s' text 50).dst := hbuf
  refine ⟨fun h => ⟨hbuf, fun σ v d => ?_, ?_⟩, ?_⟩
  · simp [display_error, display_fatal_error, h, hb]
  · simp [display_error, display_fatal_error, h, hb]
  · rw [display_error_recorder, display_fatal_error_recorder]
    by_cases h : charAt text 0 = 0
    · simp [h, errorScreen]
    · simp [h, hbuf]

theorem display_error_eq_display_fatal_error_witness :
    display_error recorder (List.replicate 50 170) [72, 105] [] =
        display_fatal_error recorder (List.replicate 50 85) [72, 105] [] ∧
    display_error recorder (List.replicate 50 170) [] [] ≠
        display_fatal_error recorder (List.replicate 50 85) [] [] :=
  ⟨((display_error_eq_display_fatal_error (List.replicate 50 170) (List.replicate 50 85)
      [72, 105] (by decide) (by decide)).1 (by decide)).2.2,
   (display_error_eq_display_fatal_error (List.replicate 50 170) (List.replicate 50 85)
      [] (by decide) (by decide)).2.2 (by decide)⟩

/-- C3: for a message of at most 49 characters the buffer handed to
`vexDisplayCenteredString` by `display_fatal_error` (and by `display_error` when
the message is not empty) is the message followed by terminators up to 50
bytes: bytes `0..len-1` are the message, bytes `len..49` are zero, and the C
string read from the buffer is the whole message. -/
theorem display_short_message_kept (s text : List Nat)
    (hs : s.length = 50) (hlen : strlen text ≤ 49) :
    display_fatal_error recorder s text [] = errorScreen (copied s text) ∧
    (charAt text 0 ≠ 0 → display_error recorder s text [] = errorScreen (copied s text)) ∧
    copied s text = cstring text ++ List.replicate (50 - strlen text) 0 ∧
    (∀ i, i < strlen text → (copied s text)[i]? = some (charAt text i)) ∧
    (∀ i, strlen text ≤ i → i ≤ 49 → (copied s text)[i]? = some 0) ∧
    cstring (copied s text) = cstring text := by
  have hget : ∀ i, (copied s text)[i]? =
      if i < 50 then some (if i < strlen text then charAt text i else 0) else none := by
    intro i
    rw [copied_eq s text hs]
    by_cases h : i < 50
    · simp [h, List.getElem?_range h]
    · have hr : (List.range 50).length ≤ i := by simp; omega
      simp [h, List.getElem?_eq_none hr]
  have hlist : copied s text = cstring text ++ List.replicate (50 - strlen text) 0 := by
    apply List.ext_getElem?
    intro i
    rw [hget]
    by_cases h1 : i < strlen text
    · have h50 : i < 50 := by omega
      have hc : i < (cstring text).length := h1
      rw [List.getElem?_append_left hc, charAt_cstring]
      simp [h1, h50]
    · have hc : (cstring text).length ≤ i := Nat.le_of_not_lt h1
      rw [List.getElem?_append_right hc, cstring_length]
      by_cases h50 : i < 50
      · have hr : i - strlen text < 50 - strlen text := by omega
        simp [h1, h50, List.getElem?_replicate, hr]
      · have hr : ¬ (i - strlen text < 50 - strlen text) := by omega
        simp [h50, List.getElem?_replicate, hr]
  refine ⟨?_, fun h => ?_, hlist, fun i hi => ?_, fun i h1 h2 => ?_, ?_⟩
  · rw [display_fatal_error_recorder]; rfl
  · rw [display_error_recorder, if_neg h]; rfl
  · have h50 : i < 50 := by omega
    rw [hget]; simp [hi, h50]
  · have h50 : i < 50 := by omega
    have hn : ¬ i < strlen text := by omega
    rw [hget]; simp [hn, h50]
  · rw [hlist]
    have e : 50 - strlen text = (49 - strlen text) + 1 := by omega
    rw [e, List.replicate_succ, cstring_append_zero]

theorem display_short_message_kept_witness :
    display_fatal_error recorder (List.replicate 50 170) [72, 105] [] =
        errorScreen (72 :: 105 :: List.replicate 48 0) ∧
    cstring (copied (List.replicate 50 170) [72, 105]) = [72, 105] :=
  have h := display_short_message_kept (List.replicate 50 170) [72, 105] (by decide) (by decide)
  ⟨h.1.trans (by decide), h.2.2.2.2.2.trans (by decide)⟩

/-- C9: for a message of 50 characters or more the copy leaves the buffer
holding exactly the first 50 bytes of the message, none of them zero, and both
routines hand that unterminated buffer to `vexDisplayCenteredString`. -/
theorem display_long_message_unterminated (s text : List Nat)
    (hs : s.length = 50) (hlen : 50 ≤ strlen text) :
    copied s text = text.take 50 ∧
    (∀ c, c ∈ copied s text → c ≠ 0) ∧
    (∀ i, i < 50 → (copied s text)[i]? = some (charAt text i) ∧ charAt text i ≠ 0) ∧
    display_fatal_error recorder s text [] = errorScreen (text.take 50) ∧
    display_error recorder s text [] = errorScreen (text.take 50) := by
  have hget : ∀ i, i < 50 → (copied s text)[i]? = some (charAt text i) := by
    intro i h
    have hi : i < strlen text := by omega
    rw [copied_eq s text hs]
    simp [List.getElem?_range h, hi]
  have htake : copied s text = text.take 50 := by
    apply List.ext_getElem?
    intro i
    by_cases h : i < 50
    · have hi : i < strlen text := by omega
      rw [hget i h, List.getElem?_take_of_lt h, getElem?_of_lt_strlen text i hi]
    · have h1 : (copied s text).length ≤ i := by rw [copied_length, hs]; omega
      have h2 : (text.take 50).length ≤ i := by
        rw [List.length_take]; omega
      rw [List.getElem?_eq_none h1, List.getElem?_eq_none h2]
  have h0 : charAt text 0 ≠ 0 := charAt_ne_zero_of_lt_strlen text 0 (by omega)
  refine ⟨htake, fun c hc => ?_, fun i h => ⟨hget i h, ?_⟩, ?_, ?_⟩
  · rw [copied_eq s text hs, List.mem_map] at hc
    obtain ⟨j, hj, rfl⟩ := hc
    have hj50 : j < 50 := List.mem_range.mp hj
    have hj' : j < strlen text := by omega
    simpa [hj'] using charAt_ne_zero_of_lt_strlen text j hj'
  · exact charAt_ne_zero_of_lt_strlen text i (by omega)
  · rw [display_fatal_error_recorder, htake]; rfl
  · rw [display_error_recorder, if_neg h0, htake]; rfl

theorem display_long_message_unterminated_witness :
    copied (List.replicate 50 170) (List.replicate 60 65) = List.replicate 50 65 ∧
    display_error recorder (List.replicate 50 170) (List.replicate 60 65) [] =
        errorScreen (List.replicate 50 65) :=
  have h := display_long_message_unterminated (List.replicate 50 170) (List.replicate 60 65)
    (by decide) (by decide)
  ⟨h.1.trans (by decide), h.2.2.2.2.trans (by decide)⟩

/-- C2, evaluated on a message of exactly 50 characters `A`: both routines hand
`vexDisplayCenteredString` a buffer of 50 bytes `A` with no terminator, not the
first 49 characters followed by a terminator. -/
theorem display_fifty_chars_no_terminator :
    display_fatal_error recorder (List.replicate 50 170) (List.replicate 50 65) [] =
        errorScreen (List.replicate 50 65) ∧
    display_error recorder (List.replicate 50 170) (List.replicate 50 65) [] =
        errorScreen (List.replicate 50 65) ∧
    strlen (List.replicate 50 65) = 50 ∧
    copied (List.replicate 50 170) (List.replicate 50 65) ≠
        (cstring (List.replicate 50 65)).take 49 ++ [0] ∧
    (copied (List.replicate 50 170) (List.replicate 50 65))[49]? = some 65 ∧
    0 ∉ copied (List.replicate 50 170) (List.replicate 50 65) := by
  decide

/-- C10: `strncpy(s, text, 50)` writes the offsets `0..49` of its destination,
once each and in order, and leaves every byte beyond them as it was; it reads
the offsets `0..min(len, 49)` of the message, so at most 50 bytes and none past
the terminator; byte `j < 50` of the buffer ends up as `text[j]` when
`j < min(len, 50)` and as `0` otherwise.  Hence two messages that agree on their
first 50 bytes give the same buffer and drive every vendor layer identically,
in both routines. -/
theorem strncpy_50_frame (dst s s' text text' : List Nat)
    (hs : s.length = 50) (hs' : s'.length = 50)
    (hagree : ∀ i, i < 50 → charAt text i = charAt text' i) :
    (strncpy dst text 50).writes = List.range 50 ∧
    (strncpy dst text 50).dst.length = dst.length ∧
    (∀ j, 50 ≤ j → (strncpy dst text 50).dst[j]? = dst[j]?) ∧
    (strncpy dst text 50).reads = List.range (min 50 (strlen text + 1)) ∧
    (∀ i, i ∈ (strncpy dst text 50).reads → i < 50 ∧ i ≤ strlen text) ∧
    (∀ j, j < 50 → (copied s text)[j]? =
      some (if j < min (strlen text) 50 then charAt text j else 0)) ∧
    copied s text = copied s' text' ∧
    (∀ (σ : Type) (v : V5Display σ) (d : σ),
      display_fatal_error v s text d = display_fatal_error v s' text' d ∧
      display_error v s text d = display_error v s' text' d) := by
  have hlt : ∀ j, j < 50 → (j < strlen text ↔ j < strlen text') := by
    intro j hj
    rw [lt_strlen_iff, lt_strlen_iff]
    constructor
    · intro h m hm
      rw [← hagree m (by omega)]; exact h m hm
    · intro h m hm
      rw [hagree m (by omega)]; exact h m hm
  have hbuf : copied s text = copied s' text' := by
    rw [copied_eq s text hs, copied_eq s' text' hs']
    apply List.map_congr_left
    intro j hj
    have hj50 : j < 50 := List.mem_range.mp hj
    by_cases h : j < strlen text
    · have h' : j < strlen text' := (hlt j hj50).mp h
      simp [h, h', hagree j hj50]
    · have h' : ¬ j < strlen text' := fun g => h ((hlt j hj50).mpr g)
      simp [h, h']
  have hb : (strncpy s text 50).dst = (strncpy s' text' 50).dst := hbuf
  refine ⟨strncpy_writes dst text 50, strncpy_length dst text 50, fun j hj => ?_,
    strncpy_reads dst text 50, fun i hi => ?_, fun j hj => ?_, hbuf, fun σ v d => ⟨?_, ?_⟩⟩
  · have hn : ¬ j < 50 := by omega
    rw [strncpy_get, if_neg hn]
  · rw [strncpy_reads, List.mem_range] at hi
    omega
  · rw [copied_eq s text hs]
    have e : (j < min (strlen text) 50) ↔ j < strlen text := by omega
    simp [List.getElem?_range hj, e]
  · simp [display_fatal_error, hb]
  · simp [display_error, hb, hagree 0 (by omega)]

theorem strncpy_50_frame_witness :
    (strncpy (List.replicate 50 170 ++ [1, 2, 3]) (List.replicate 50 65 ++ [66]) 50).writes =
        List.range 50 ∧
    (strncpy (List.replicate 50 170 ++ [1, 2, 3]) (List.replicate 50 65 ++ [66]) 50).dst[51]? =
        some 2 ∧
    (strncpy (List.replicate 50 170 ++ [1, 2, 3]) (List.replicate 50 65 ++ [66]) 50).reads =
        List.range 50 ∧
    copied (List.replicate 50 170) (List.replicate 50 65 ++ [66]) =
        copied (List.replicate 50 85) (List.replicate 50 65 ++ [67, 68]) :=
  have h := strncpy_50_frame (List.replicate 50 170 ++ [1, 2, 3])
    (List.replicate 50 170) (List.replicate 50 85)
    (List.replicate 50 65 ++ [66]) (List.replicate 50 65 ++ [67, 68])
    (by decide) (by decide) (by decide)
  ⟨h.1, (h.2.2.1 51 (by decide)).trans (by decide), h.2.2.2.1.trans (by decide),
    h.2.2.2.2.2.2.1⟩

/-! ## Claims on `src/devices/vdml_distance.cpp` -/

theorem invokeAll_port {σ α β γ δ : Type} (c : DistanceApi σ α β γ δ)
    (ms : List DistanceMethod) : ∀ (self : Distance) (w : σ),
    (Distance.invokeAll c ms self w).1 = self := by
  induction ms with
  | nil => intro self w; rfl
  | cons m ms ih =>
    intro self w
    rw [Distance.invokeAll, ih]
    cases m <;> rfl

/-- C6: whatever the accessor layer does, each of `get`, `get_confidence`,
`get_object_size`, `get_object_velocity` on an object constructed with port `p`
sends the layer exactly one call, its own accessor with argument `p`, returns
that call's result as it is, and leaves behind the state that call left. -/
theorem distance_methods_forward {σ α β γ δ : Type} (c : DistanceApi σ α β γ δ)
    (p : Nat) (w : σ) (log : List DistanceCall) :
    (Distance.mk p).get (logged c) (w, log) =
      ((c.distance_get p w).1, Distance.mk p,
        (c.distance_get p w).2, log ++ [DistanceCall.distance_get p]) ∧
    (Distance.mk p).get_confidence (logged c) (w, log) =
      ((c.distance_get_confidence p w).1, Distance.mk p,
        (c.distance_get_confidence p w).2, log ++ [DistanceCall.distance_get_confidence p]) ∧
    (Distance.mk p).get_object_size (logged c) (w, log) =
      ((c.distance_get_object_size p w).1, Distance.mk p,
        (c.distance_get_object_size p w).2, log ++ [DistanceCall.distance_get_object_size p]) ∧
    (Distance.mk p).get_object_velocity (logged c) (w, log) =
      ((c.distance_get_object_velocity p w).1, Distance.mk p,
        (c.distance_get_object_velocity p w).2,
        log ++ [DistanceCall.distance_get_object_velocity p]) :=
  ⟨rfl, rfl, rfl, rfl⟩

/-- C7: for every 8-bit port `p`, in range 1-21 or not, after any sequence of
method calls on an object constructed with `p` the object is as constructed,
`get_port` returns `p`, and `get_port` leaves the state below the wrapper,
call log included, untouched. -/
theorem distance_port_immutable {σ α β γ δ : Type} (c : DistanceApi σ α β γ δ)
    (p : Nat) (hp : p < 256) (ms : List DistanceMethod) (w : σ) (log : List DistanceCall) :
    (Distance.invokeAll (logged c) ms (Distance.mk p) (w, log)).1 = Distance.mk p ∧
    (Distance.invokeAll (logged c) ms (Distance.mk p) (w, log)).1.get_port
        (Distance.invokeAll (logged c) ms (Distance.mk p) (w, log)).2 =
      (p, Distance.mk p,
        (Distance.invokeAll (logged c) ms (Distance.mk p) (w, log)).2) ∧
    (Distance.mk p).get_port (w, log) = (p, Distance.mk p, (w, log)) ∧
    (Rotation.mk p)._port = p := by
  have _ := hp
  refine ⟨invokeAll_port _ ms _ _, ?_, rfl, rfl⟩
  rw [invokeAll_port]
  rfl

theorem distance_port_immutable_witness :
    (Distance.invokeAll (logged failingDistance)
        [DistanceMethod.get, DistanceMethod.get_port, DistanceMethod.get_object_velocity]
        (Distance.mk 255) (0, [])).1.get_port
      (Distance.invokeAll (logged failingDistance)
        [DistanceMethod.get, DistanceMethod.get_port, DistanceMethod.get_object_velocity]
        (Distance.mk 255) (0, [])).2 =
    (255, Distance.mk 255, ( ENXIO, [DistanceCall.distance_get 255,
      DistanceCall.distance_get_object_velocity 255])) :=
  (distance_port_immutable failingDistance 255 (by decide)
    [DistanceMethod.get, DistanceMethod.get_port, DistanceMethod.get_object_velocity]
    0 []).2.1.trans (by decide)

/-! ## Claims on `include/pros/rotation.h` -/

/-- C8: on a port outside 1-21 each of the nine rotation accessors returns the
error sentinel `PROS_ERR` and leaves the error code at `ENXIO`, "invalid port
number", without touching the vendor state. -/
theorem rotation_invalid_port {σ : Type} (v : RotationVendor σ) (port : Nat)
    (hbad : ¬ (1 ≤ port ∧ port ≤ 21)) (position : Nat) (value : Bool) (k : Kernel σ) :
    rotation_reset v port k = (PROS_ERR, { k with errno := ENXIO }) ∧
    rotation_set_position v port position k = (PROS_ERR, { k with errno := ENXIO }) ∧
    rotation_reset_position v port k = (PROS_ERR, { k with errno := ENXIO }) ∧
    rotation_get_position v port k = (PROS_ERR, { k with errno := ENXIO }) ∧
    rotation_get_velocity v port k = (PROS_ERR, { k with errno := ENXIO }) ∧
    rotation_get_angle v port k = (PROS_ERR, { k with errno := ENXIO }) ∧
    rotation_set_reversed v port value k = (PROS_ERR, { k with errno := ENXIO }) ∧
    rotation_reverse v port k = (PROS_ERR, { k with errno := ENXIO }) ∧
    rotation_get_reversed v port k = (PROS_ERR, { k with errno := ENXIO }) := by
  have h : ∀ body, rotation_claim v port k body = (PROS_ERR, { k with errno := ENXIO }) := by
    intro body
    rw [rotation_claim, if_neg hbad]
  exact ⟨h _, h _, h _, h _, h _, h _, h _, h _, h _⟩

theorem rotation_invalid_port_witness :
    (rotation_get_position idleRotation 22 { errno := 0, vendor := () }).1 = PROS_ERR ∧
    (rotation_get_position idleRotation 22 { errno := 0, vendor := () }).2.errno = ENXIO ∧
    (rotation_reset idleRotation 0 { errno := 0, vendor := () }).1 = PROS_ERR ∧
    (rotation_reset idleRotation 0 { errno := 0, vendor := () }).2.errno = ENXIO :=
  have h22 := rotation_invalid_port idleRotation 22 (by decide) 0 false { errno := 0, vendor := () }
  have h0 := rotation_invalid_port idleRotation 0 (by decide) 0 false { errno := 0, vendor := () }
  ⟨congrArg Prod.fst h22.2.2.2.1, congrArg (fun r => r.2.errno) h22.2.2.2.1,
   congrArg Prod.fst h0.1, congrArg (fun r => r.2.errno) h0.1⟩

end Pros
